import Mathlib

/-!
Shallow embedding of the post-metrics pipeline of `src/project.py`
(LinkedIn analytics dashboard).  The pipeline stages are:

* Normalize — `pd.to_numeric(..., errors='coerce')` on the metric columns and
  `pd.to_datetime(..., errors='coerce')` on the date column (lines 25-26, 55-58);
* Filter — the date-range branch (lines 43-47) and the keyword filter (lines 50-52);
* Derive — `Total Engagement` (line 59), `Short Post` (line 74),
  `classify_post_type` (lines 77-86), hashtag extraction (line 93);
* Aggregate — column sums, `engagement_rate`, `ctr`, `avg_engagement`,
  `idxmax`-based top posts (lines 61-72).

Cells are modelled as rationals / strings / nulls (pandas NaN/NaT become
`Option.none`); machine floats are idealised as `ℚ` with Python's
round-half-to-even for `round(x, 2)`.  Fallible pandas operations are embedded
in `Except` so that "raises" versus "coerces to null" is visible in the types.
-/

namespace Project

/-- Executable substring test: does `pat` occur contiguously inside the list? -/
def containsSub (pat : List Char) : List Char → Bool
  | [] => pat.isEmpty
  | c :: rest => pat.isPrefixOf (c :: rest) || containsSub pat rest

/-- Python `str(x)` applied to a pandas cell that is either a string or NaN:
`astype(str)` turns NaN into the literal string "nan" (used at lines 52, 74, 86, 93). -/
def pyStr : Option String → String
  | none => "nan"
  | some s => s

/-- Numeric value of a list of decimal digit characters. -/
def digitsVal (l : List Char) : Nat :=
  l.foldl (fun n c => 10 * n + (c.toNat - ('0').toNat)) 0

/-- Parse a non-empty all-digit character list. -/
def parseDigits (l : List Char) : Option Nat :=
  if !l.isEmpty && l.all Char.isDigit then some (digitsVal l) else none

/-- Core of the numeric-string parsing performed by `pd.to_numeric`:
an optional sign, an integer part, and an optional fractional part. -/
def parseNum (s : String) : Option ℚ :=
  let p : ℚ × List Char :=
    match s.data with
    | '-' :: t => (-1, t)
    | '+' :: t => (1, t)
    | l => (1, l)
  match p.2.splitOn '.' with
  | [ip] => (parseDigits ip).map (fun n => p.1 * n)
  | [ip, fp] =>
    match parseDigits ip, parseDigits fp with
    | some a, some b => some (p.1 * ((a : ℚ) + (b : ℚ) / (10 ^ fp.length)))
    | _, _ => none
  | _ => none

/-- Core of the date-string parsing performed by `pd.to_datetime`:
an ISO `YYYY-MM-DD` string, encoded as the rational `y*10000 + m*100 + d`
(an order-preserving encoding of calendar dates). -/
def parseDate (s : String) : Option ℚ :=
  match s.data.splitOn '-' with
  | [y, m, d] =>
    match parseDigits y, parseDigits m, parseDigits d with
    | some yv, some mv, some dv =>
      if 1 ≤ mv ∧ mv ≤ 12 ∧ 1 ≤ dv ∧ dv ≤ 31 then
        some ((yv : ℚ) * 10000 + (mv : ℚ) * 100 + (dv : ℚ))
      else none
    | _, _, _ => none
  | _ => none

/-- Raw spreadsheet cell as read by `pd.read_excel`: a number, a string, or a
missing value (NaN). -/
inductive RawCell where
  | num (q : ℚ)
  | str (s : String)
  | null
  deriving DecidableEq

/-- Pandas `errors=` mode of `pd.to_numeric` / `pd.to_datetime`. -/
inductive ErrMode where
  | coerce
  | raiseMode
  deriving DecidableEq

/-- Python exceptions that the embedded pandas operations can raise. -/
inductive PyError where
  | valueError
  | indexError
  | keyError
  deriving DecidableEq

/-- Embedding of `pd.to_numeric(cell, errors=mode)`: numbers pass through,
parseable numeric strings are parsed, missing values stay missing; an
unparseable string is null under `errors='coerce'` and a `ValueError`
under `errors='raise'`.  The source always passes `errors='coerce'`
(lines 25, 55-58). -/
def to_numeric (mode : ErrMode) (c : RawCell) : Except PyError (Option ℚ) :=
  match c with
  | .num q => .ok (some q)
  | .null => .ok none
  | .str s =>
    match parseNum s with
    | some q => .ok (some q)
    | none =>
      match mode with
      | .coerce => .ok none
      | .raiseMode => .error .valueError

/-- Embedding of `pd.to_datetime(cell, errors=mode)` (line 26): date strings are
parsed, numbers are accepted as epoch offsets, missing values stay missing;
an unparseable string is null under `errors='coerce'` and a `ValueError`
under `errors='raise'`. -/
def to_datetime (mode : ErrMode) (c : RawCell) : Except PyError (Option ℚ) :=
  match c with
  | .num q => .ok (some q)
  | .null => .ok none
  | .str s =>
    match parseDate s with
    | some q => .ok (some q)
    | none =>
      match mode with
      | .coerce => .ok none
      | .raiseMode => .error .valueError

/-- Total (error-free) value of `pd.to_numeric(cell, errors='coerce')`. -/
def coerceNumPure (c : RawCell) : Option ℚ :=
  match c with
  | .num q => some q
  | .str s => parseNum s
  | .null => none

/-- Total (error-free) value of `pd.to_datetime(cell, errors='coerce')`. -/
def coerceDatePure (c : RawCell) : Option ℚ :=
  match c with
  | .num q => some q
  | .str s => parseDate s
  | .null => none

/-- Raw input row, one per spreadsheet line, before Normalize. -/
structure RawRecord where
  date : RawCell
  post : Option String
  likes : RawCell
  comments : RawCell
  shares : RawCell
  clicks : RawCell
  impressions : RawCell
  deriving DecidableEq

/-- Normalized post record: metric columns numeric-or-null, date
parsed-or-null, post text a string-or-null. -/
structure PostRecord where
  date : Option ℚ
  post : Option String
  likes : Option ℚ
  comments : Option ℚ
  shares : Option ℚ
  clicks : Option ℚ
  impressions : Option ℚ
  deriving DecidableEq

/-- Post Table: ordered sequence of records. -/
abbrev Table := List PostRecord

/-- Normalize one row with the coercions the source applies
(`errors='coerce'` throughout, lines 25-26 and 55-58). -/
def normalizeRecord (r : RawRecord) : Except PyError PostRecord := do
  let imp ← to_numeric .coerce r.impressions
  let d ← to_datetime .coerce r.date
  let lk ← to_numeric .coerce r.likes
  let cm ← to_numeric .coerce r.comments
  let sh ← to_numeric .coerce r.shares
  let ck ← to_numeric .coerce r.clicks
  pure { date := d, post := r.post, likes := lk, comments := cm,
         shares := sh, clicks := ck, impressions := imp }

/-- Total (error-free) normalization of one row. -/
def normalizeRecordPure (r : RawRecord) : PostRecord :=
  { date := coerceDatePure r.date, post := r.post,
    likes := coerceNumPure r.likes, comments := coerceNumPure r.comments,
    shares := coerceNumPure r.shares, clicks := coerceNumPure r.clicks,
    impressions := coerceNumPure r.impressions }

/-- Normalize stage over the whole table. -/
def normalize : List RawRecord → Except PyError Table
  | [] => .ok []
  | r :: rest => do
    let r' ← normalizeRecord r
    let rest' ← normalize rest
    pure (r' :: rest')

/-- Return value of the `st.date_input` range selector: no selection, a single
date, or a start/end pair (the widget yields a tuple of length 0, 1 or 2). -/
inductive DateSel where
  | noSel
  | single (d : ℚ)
  | range (s e : ℚ)
  deriving DecidableEq

/-- Predicate of the date-range mask at line 45:
`(df['Date'] >= start) & (df['Date'] <= end)`; a NaT date compares false. -/
def dateInRange (s e : ℚ) (r : PostRecord) : Bool :=
  match r.date with
  | some d => decide (s ≤ d) && decide (d ≤ e)
  | none => false

/-- Date filter applied to the table (lines 43-45): only a length-2 selection
filters; anything else leaves the table unchanged. -/
def dateFilter (sel : DateSel) (t : Table) : Table :=
  match sel with
  | .range s e => t.filter (dateInRange s e)
  | _ => t

/-- Date-filter stage with its user-visible outcome (lines 43-47): the Boolean
is true exactly when the `st.warning` fallback branch runs. -/
def dateFilterStage (sel : DateSel) (t : Table) : Table × Bool :=
  match sel with
  | .range s e => ((dateFilter (.range s e) t), false)
  | _ => (t, true)

/-- ASCII lowercasing of Python `str.lower` / `re.IGNORECASE`, computed
character by character. -/
def strLower (s : String) : String :=
  String.mk (s.data.map Char.toLower)

/-- Case-insensitive containment test of
`str.contains(keyword, case=False, na=False)` at line 52, for keywords free of
regex metacharacters (where the regex search degenerates to substring search);
the `na=False` argument is dead because `astype(str)` has already replaced
NaN by "nan". -/
def pyContains (pat s : String) : Bool :=
  containsSub (strLower pat).data (strLower s).data

/-- Keyword filter (lines 50-52): an empty keyword is falsy, so the table
passes through unchanged; otherwise keep rows whose stringified post text
contains the keyword case-insensitively. -/
def keywordFilter (kw : String) (t : Table) : Table :=
  if kw = "" then t
  else t.filter (fun r => pyContains kw (pyStr r.post))

/-- Per-row `Total Engagement` (line 59): `Likes + Comments + Shares` with
pandas NaN propagation — null if any addend is null. -/
def totalEngagement (r : PostRecord) : Option ℚ := do
  let a ← r.likes
  let b ← r.comments
  let c ← r.shares
  pure (a + b + c)

/-- Per-row `Short Post` (line 74): `astype(str).str.slice(0, 25) + "..."`. -/
def shortLabel (post : Option String) : String :=
  String.mk ((pyStr post).data.take 25) ++ "..."

/-- Fixed keyword list of the Educational classifier (line 77). -/
def educational_keywords : List String :=
  ["learn", "educational", "knowledge", "tips", "tutorial", "training", "course"]

/-- Embedding of `classify_post_type` (lines 79-84): stringify and lowercase
the post, return "Educational" when any keyword occurs as a substring,
else "Other". -/
def classify_post_type (post : Option String) : String :=
  let p := strLower (pyStr post)
  if educational_keywords.any (fun k => containsSub k.data p.data) then "Educational"
  else "Other"

/-- Word character of the regex `\w` (ASCII: letters, digits, underscore). -/
def isWordChar (c : Char) : Bool :=
  c.isAlphanum || c == '_'

/-- Embedding of `re.findall(r"#\w+", x)` (line 93): left-to-right scan; at a
`#` followed by at least one word character, emit the maximal (greedy) match
and resume after it; otherwise move one character forward. -/
def findallHashtags : List Char → List (List Char)
  | [] => []
  | c :: rest =>
    if c = '#' then
      let w := rest.takeWhile isWordChar
      if w = [] then findallHashtags rest
      else ('#' :: w) :: findallHashtags (rest.dropWhile isWordChar)
    else findallHashtags rest
termination_by l => l.length
decreasing_by
  · simp
  · simp only [List.length_cons]
    exact Nat.lt_succ_of_le (List.dropWhile_sublist isWordChar).length_le
  · simp

/-- Per-row `Hashtags` value (line 93): findall over the stringified post. -/
def hashtagsOf (post : Option String) : List String :=
  (findallHashtags (pyStr post).data).map (fun l => String.mk l)

/-- Declarative reading of the hashtag pattern: position `i` starts a hashtag
token when the character there is `#` and the next character is a word
character. -/
def isHashtagStart (l : List Char) (i : Nat) : Bool :=
  (l.get? i == some '#') && ((l.get? (i + 1)).any isWordChar)

/-- Declarative reading of the token that starts at position `i`: the `#`
plus the maximal word-character run after it. -/
def tokenAt (l : List Char) (i : Nat) : List Char :=
  '#' :: (l.drop (i + 1)).takeWhile isWordChar

/-- Declarative hashtag-occurrence list: tokens of all start positions, in
text order, one entry per occurrence. -/
def hashtagOccurrences (l : List Char) : List (List Char) :=
  ((List.range l.length).filter (isHashtagStart l)).map (tokenAt l)

/-- Well-formedness of an extracted token: a `#` followed by one or more word
characters. -/
def tokenOk (s : String) : Bool :=
  match s.data with
  | c :: w => c == '#' && !w.isEmpty && w.all isWordChar
  | [] => false

/-- Column sum with pandas `skipna=True` semantics (`Series.sum`, lines 61-65):
sum of the non-null values, `0` for an all-null or empty column. -/
def colSum (l : List (Option ℚ)) : ℚ :=
  (l.filterMap id).sum

/-- Total likes (line 61). -/
def total_likes (t : Table) : ℚ := colSum (t.map PostRecord.likes)

/-- Total comments (line 62). -/
def total_comments (t : Table) : ℚ := colSum (t.map PostRecord.comments)

/-- Total shares (line 63). -/
def total_shares (t : Table) : ℚ := colSum (t.map PostRecord.shares)

/-- Total clicks (line 64). -/
def total_clicks (t : Table) : ℚ := colSum (t.map PostRecord.clicks)

/-- Total impressions (line 65). -/
def total_impressions (t : Table) : ℚ := colSum (t.map PostRecord.impressions)

/-- Python `round` to an integer: round-half-to-even on exact values. -/
def roundHalfEven (x : ℚ) : ℤ :=
  let f := ⌊x⌋
  let r := x - f
  if r < 1 / 2 then f
  else if r > 1 / 2 then f + 1
  else if f % 2 = 0 then f else f + 1

/-- Python `round(x, 2)`. -/
def pyRound2 (x : ℚ) : ℚ :=
  (roundHalfEven (x * 100) : ℚ) / 100

/-- Division with the division-by-zero hazard made explicit: `none` is the
`ZeroDivisionError` the source must avoid. -/
def safeDiv (a b : ℚ) : Option ℚ :=
  if b = 0 then none else some (a / b)

/-- Embedding of line 67:
`round(((total_likes + total_comments + total_shares) / total_impressions) * 100, 2)
if total_impressions > 0 else 0`. -/
def engagement_rate (t : Table) : Option ℚ :=
  if 0 < total_impressions t then
    (safeDiv (total_likes t + total_comments t + total_shares t)
        (total_impressions t)).map (fun x => pyRound2 (x * 100))
  else some 0

/-- Embedding of line 68:
`round((total_clicks / total_impressions) * 100, 2) if total_impressions > 0 else 0`. -/
def ctr (t : Table) : Option ℚ :=
  if 0 < total_impressions t then
    (safeDiv (total_clicks t) (total_impressions t)).map (fun x => pyRound2 (x * 100))
  else some 0

/-- Pandas `Series.mean` with `skipna=True`: NaN (`none`) on an empty or
all-null column, otherwise the mean of the non-null values. -/
def meanOpt (l : List (Option ℚ)) : Option ℚ :=
  let v := l.filterMap id
  if v = [] then none else some (v.sum / (v.length : ℚ))

/-- Embedding of line 69: `round(df['Total Engagement'].mean(), 2)`
(`round` of NaN is NaN). -/
def avg_engagement (t : Table) : Option ℚ :=
  (meanOpt (t.map totalEngagement)).map pyRound2

/-- Errors arising in the Aggregate stage.  `emptyDatasetError` is the error
value named by the specification; `valueError` and `keyError` are the pandas
exceptions `Series.idxmax` and `DataFrame.loc` can raise. -/
inductive AggError where
  | emptyDatasetError
  | valueError
  | keyError
  deriving DecidableEq

/-- Embedding of `Series.idxmax` (lines 71-72): the first index holding the
maximum of the non-null values; raises `ValueError` when no non-null value
exists (in particular on an empty column). -/
def idxmax (l : List (Option ℚ)) : Except AggError Nat :=
  let cand := (l.enum.filterMap (fun p => p.2.map (fun v => (p.1, v)))).foldl
    (fun acc p =>
      match acc with
      | none => some p
      | some q => if p.2 > q.2 then some p else some q) none
  match cand with
  | some p => .ok p.1
  | none => .error .valueError

/-- Embedding of `df.loc[df[col].idxmax()]`: look the winning row up. -/
def topAt (t : Table) (col : List (Option ℚ)) : Except AggError PostRecord := do
  let i ← idxmax col
  match t.get? i with
  | some r => pure r
  | none => .error .keyError

/-- Aggregate summary (lines 61-72). -/
structure Summary where
  total_likes : ℚ
  total_comments : ℚ
  total_shares : ℚ
  total_clicks : ℚ
  total_impressions : ℚ
  engagement_rate : Option ℚ
  ctr : Option ℚ
  avg_engagement : Option ℚ
  top_post : PostRecord
  top_engaging_post : PostRecord
  deriving DecidableEq

/-- Aggregate stage over the derived table: sums and rates never fail, the
`idxmax`-based top-post lookups can (lines 61-72). -/
def aggregate (t : Table) : Except AggError Summary := do
  let tp ← topAt t (t.map PostRecord.likes)
  let te ← topAt t (t.map totalEngagement)
  pure { total_likes := total_likes t, total_comments := total_comments t,
         total_shares := total_shares t, total_clicks := total_clicks t,
         total_impressions := total_impressions t,
         engagement_rate := engagement_rate t, ctr := ctr t,
         avg_engagement := avg_engagement t,
         top_post := tp, top_engaging_post := te }

/-- Null test of `Series.dropna` on a raw column. -/
def notNull (c : RawCell) : Bool :=
  match c with
  | .null => false
  | _ => true

/-- Embedding of lines 29-30:
`df[col].dropna().iloc[0] if col in df.columns else default`.
The argument is `none` when the column is absent; `iloc[0]` on the empty
selection raises `IndexError`. -/
def extractInfo (dflt : String) : Option (List RawCell) → Except PyError RawCell
  | none => .ok (.str dflt)
  | some cells =>
    match cells.filter notNull with
    | [] => .error .indexError
    | c :: _ => .ok c

/-- Example record whose post text is null. -/
def rNull : PostRecord :=
  { date := none, post := none, likes := none, comments := none,
    shares := none, clicks := none, impressions := none }

/-- Example record dated day 1. -/
def rOne : PostRecord :=
  { date := some 1, post := some ("Great tutorial on X"), likes := some 10,
    comments := some 2, shares := some 1, clicks := some 5, impressions := some 100 }

/-- Example one-row table. -/
def tOne : Table := [rOne]

theorem to_numeric_coerce_ok (c : RawCell) :
    to_numeric .coerce c = .ok (coerceNumPure c) := by
  cases c with
  | num q => rfl
  | null => rfl
  | str s => cases h : parseNum s <;> simp [to_numeric, coerceNumPure, h]

theorem to_datetime_coerce_ok (c : RawCell) :
    to_datetime .coerce c = .ok (coerceDatePure c) := by
  cases c with
  | num q => rfl
  | null => rfl
  | str s => cases h : parseDate s <;> simp [to_datetime, coerceDatePure, h]

theorem normalizeRecord_ok (r : RawRecord) :
    normalizeRecord r = .ok (normalizeRecordPure r) := by
  simp [normalizeRecord, normalizeRecordPure, to_numeric_coerce_ok, to_datetime_coerce_ok,
    Bind.bind, Except.bind, Pure.pure, Except.pure]

theorem normalize_ok (raw : List RawRecord) :
    normalize raw = .ok (raw.map normalizeRecordPure) := by
  induction raw with
  | nil => rfl
  | cons r rest ih => simp [normalize, normalizeRecord_ok, ih, Bind.bind, Except.bind, Pure.pure, Except.pure]

/-- C5: the Normalize stage never raises — with `errors='coerce'` it equals the
total per-row coercion on every input table, an unparseable numeric string and
a missing numeric cell become null, and an unparseable date string and a
missing date cell become null (per-cell coercion failures are silent nulls). -/
theorem claim_C5_normalize_never_raises :
    (∀ raw : List RawRecord, normalize raw = .ok (raw.map normalizeRecordPure)) ∧
    (∀ s : String, parseNum s = none → to_numeric ErrMode.coerce (.str s) = .ok none) ∧
    (to_numeric ErrMode.coerce .null = .ok none) ∧
    (∀ s : String, parseDate s = none → to_datetime ErrMode.coerce (.str s) = .ok none) ∧
    (to_datetime ErrMode.coerce .null = .ok none) := by
  refine ⟨normalize_ok, fun s h => ?_, rfl, fun s h => ?_, rfl⟩
  · simp [to_numeric, h]
  · simp [to_datetime, h]

/-- C5 witness: the coercions at the concrete unparseable strings "abc", "hello". -/
theorem claim_C5_normalize_never_raises_witness :
    (parseNum ("abc") = none ∧ to_numeric ErrMode.coerce (.str ("abc")) = .ok none) ∧
    (parseDate ("hello") = none ∧ to_datetime ErrMode.coerce (.str ("hello")) = .ok none) :=
  ⟨⟨by decide, claim_C5_normalize_never_raises.2.1 ("abc") (by decide)⟩,
   ⟨by decide, claim_C5_normalize_never_raises.2.2.2.1 ("hello") (by decide)⟩⟩

/-- C4: `engagement_rate` and `ctr` are never a division error; when total
impressions are positive they equal the rounded percentage formulas, and when
total impressions are zero they equal exactly 0 (the division branch is
guarded, so `safeDiv` never returns its error value). -/
theorem claim_C4_rates_zero_guard (t : Table) :
    (engagement_rate t ≠ none ∧ ctr t ≠ none) ∧
    engagement_rate t =
      some (if 0 < total_impressions t then
        pyRound2 (100 * (total_likes t + total_comments t + total_shares t) /
          total_impressions t)
      else 0) ∧
    ctr t =
      some (if 0 < total_impressions t then
        pyRound2 (100 * total_clicks t / total_impressions t)
      else 0) := by
  by_cases h : 0 < total_impressions t
  · have hne : total_impressions t ≠ 0 := ne_of_gt h
    have h1 : (total_likes t + total_comments t + total_shares t) / total_impressions t * 100
        = 100 * (total_likes t + total_comments t + total_shares t) / total_impressions t := by
      ring
    have h2 : total_clicks t / total_impressions t * 100
        = 100 * total_clicks t / total_impressions t := by
      ring
    simp [engagement_rate, ctr, safeDiv, h, hne, h1, h2]
  · simp [engagement_rate, ctr, h]

/-- C8: the date filter and the keyword filter commute, and each is
idempotent, for every selection, keyword and table. -/
theorem claim_C8_filters_commute_idempotent (sel : DateSel) (kw : String) (t : Table) :
    keywordFilter kw (dateFilter sel t) = dateFilter sel (keywordFilter kw t) ∧
    dateFilter sel (dateFilter sel t) = dateFilter sel t ∧
    keywordFilter kw (keywordFilter kw t) = keywordFilter kw t := by
  refine ⟨?_, ?_, ?_⟩
  · by_cases hk : kw = ""
    · simp [keywordFilter, hk]
    · cases sel with
      | noSel => rfl
      | single d => rfl
      | range s e =>
        simp only [keywordFilter, dateFilter, if_neg hk]
        exact List.filter_comm _ _ t
  · cases sel <;> simp [dateFilter, List.filter_filter]
  · by_cases hk : kw = "" <;> simp [keywordFilter, hk, List.filter_filter]

/-- C9: the "Unknown"/"N/A" defaults of the platform/person extraction apply
exactly when the column is absent; a present column with at least one
non-null cell yields its first non-null value safely, while a present but
all-null column makes `dropna().iloc[0]` raise `IndexError`. -/
theorem claim_C9_info_extraction_precondition :
    (∀ d : String, extractInfo d none = .ok (.str d)) ∧
    (∀ (d : String) (cells : List RawCell), (∃ c ∈ cells, notNull c = true) →
      ∃ v, extractInfo d (some cells) = .ok v) ∧
    (∀ (d : String) (cells : List RawCell), (∀ c ∈ cells, notNull c = false) →
      extractInfo d (some cells) = .error .indexError) := by
  refine ⟨fun d => rfl, fun d cells h => ?_, fun d cells h => ?_⟩
  · obtain ⟨c, hc, hn⟩ := h
    cases hf : cells.filter notNull with
    | nil =>
      exact absurd hn (by simpa using List.filter_eq_nil_iff.mp hf c hc)
    | cons v rest => exact ⟨v, by simp [extractInfo, hf]⟩
  · have hf : cells.filter notNull = [] :=
      List.filter_eq_nil_iff.mpr (fun c hc => by simp [h c hc])
    simp [extractInfo, hf]

/-- C9 witness: a present column with a value after a null is extracted
safely, and a present all-null column raises `IndexError`. -/
theorem claim_C9_info_extraction_precondition_witness :
    ((∃ c ∈ [RawCell.null, RawCell.str ("LinkedIn")], notNull c = true) ∧
      ∃ v, extractInfo ("Unknown") (some [RawCell.null, RawCell.str ("LinkedIn")]) = .ok v) ∧
    ((∀ c ∈ [RawCell.null], notNull c = false) ∧
      extractInfo ("Unknown") (some [RawCell.null]) = .error .indexError) :=
  ⟨⟨by decide,
    claim_C9_info_extraction_precondition.2.1 ("Unknown")
      [RawCell.null, RawCell.str ("LinkedIn")] (by decide)⟩,
   ⟨by decide,
    claim_C9_info_extraction_precondition.2.2 ("Unknown") [RawCell.null] (by decide)⟩⟩

/-- C10: every `Short Post` label ends in the ellipsis marker (the prefix kept
is at most 25 characters), the null post text is stringified so its label is
literally "nan...", and a post of at most 25 characters gets the marker
appended as well, so it is not returned verbatim. -/
theorem claim_C10_short_label_ellipsis :
    (∀ post : Option String, ∃ s : String, shortLabel post = s ++ "..." ∧ s.length ≤ 25) ∧
    shortLabel none = "nan..." ∧
    (∀ s : String, s.length ≤ 25 →
      shortLabel (some s) = s ++ "..." ∧ shortLabel (some s) ≠ s) := by
  refine ⟨fun post => ⟨String.mk ((pyStr post).data.take 25), rfl, ?_⟩, rfl, fun s h => ?_⟩
  · show ((pyStr post).data.take 25).length ≤ 25
    simp [List.length_take]
  · have hdata : (s.data.take 25) = s.data := List.take_of_length_le h
    have heq : shortLabel (some s) = s ++ "..." := by
      show String.mk (s.data.take 25) ++ "..." = s ++ "..."
      rw [hdata]
    refine ⟨heq, fun hbad => ?_⟩
    rw [heq] at hbad
    have hlen := congrArg String.length hbad
    rw [String.length_append] at hlen
    have h3 : ("..." : String).length = 3 := rfl
    omega

/-- C10 witness: the label of the concrete five-character post "short". -/
theorem claim_C10_short_label_ellipsis_witness :
    ("short" : String).length ≤ 25 ∧
    (shortLabel (some ("short")) = "short" ++ "..." ∧ shortLabel (some ("short")) ≠ "short") :=
  ⟨by decide, claim_C10_short_label_ellipsis.2.2 ("short") (by decide)⟩

/-- C1 (code evaluated at the failing input): on the empty table the Aggregate
stage fails with the pandas `ValueError` raised by `Series.idxmax` — an
unhandled crash — and not with the `EmptyDatasetError` value the
specification requires. -/
theorem claim_C1_empty_aggregate_raises :
    aggregate ([] : Table) = .error .valueError ∧
    aggregate ([] : Table) ≠ .error .emptyDatasetError := by
  refine ⟨rfl, ?_⟩
  rw [show aggregate ([] : Table) = .error .valueError from rfl]
  simp

/-- C2 counterexample: for the selection `start = 2 > 1 = end` — invalid
according to the claim — the filter branch runs anyway: the result is the
empty table, not the unfiltered one-row table, and no warning is shown. -/
theorem claim_C2_start_after_end_counterexample :
    dateFilterStage (.range 2 1) tOne = ([], false) ∧ tOne ≠ [] ∧ (1 : ℚ) < 2 := by
  refine ⟨?_, by decide, by norm_num⟩
  show (dateFilter (.range 2 1) tOne, false) = ([], false)
  simp [dateFilter, tOne, rOne, dateInRange]

/-- C2 amended: a missing or single-date selection leaves the table unfiltered
and surfaces the warning, while a start/end pair with `start > end` is treated
as a valid range and filters normally, yielding the empty table with no
warning. -/
theorem claim_C2_invalid_range_fallback :
    (∀ t : Table, dateFilterStage .noSel t = (t, true)) ∧
    (∀ (d : ℚ) (t : Table), dateFilterStage (.single d) t = (t, true)) ∧
    (∀ (s e : ℚ) (t : Table), e < s → dateFilterStage (.range s e) t = ([], false)) := by
  refine ⟨fun t => rfl, fun d t => rfl, fun s e t h => ?_⟩
  show (dateFilter (.range s e) t, false) = ([], false)
  have : t.filter (dateInRange s e) = [] := by
    refine List.filter_eq_nil_iff.mpr (fun r _ => ?_)
    cases hd : r.date with
    | none => simp [dateInRange, hd]
    | some d =>
      simp only [dateInRange, hd, Bool.and_eq_true, decide_eq_true_eq, not_and]
      intro h1 h2
      linarith
  simp [dateFilter, this]

/-- C2 witness: the fallback holds at the concrete selections, and the
start-greater-than-end pair (3, 2) filters the one-row table to empty. -/
theorem claim_C2_invalid_range_fallback_witness :
    dateFilterStage .noSel tOne = (tOne, true) ∧
    dateFilterStage (.single 1) tOne = (tOne, true) ∧
    ((2 : ℚ) < 3 ∧ dateFilterStage (.range 3 2) tOne = ([], false)) :=
  ⟨claim_C2_invalid_range_fallback.1 tOne,
   claim_C2_invalid_range_fallback.2.1 1 tOne,
   ⟨by norm_num, claim_C2_invalid_range_fallback.2.2 3 2 tOne (by norm_num)⟩⟩

theorem containsSub_iff (pat l : List Char) : containsSub pat l = true ↔ pat <:+: l := by
  induction l with
  | nil => simp [containsSub, List.infix_nil, List.isEmpty_iff]
  | cons c rest ih =>
    simp [containsSub, List.isPrefixOf_iff_prefix, ih, List.infix_cons_iff]

theorem educational_keywords_lower : ∀ k ∈ educational_keywords, strLower k = k := by
  decide

/-- C3 counterexample: a record with a null post text is retained by the
keyword filter for the non-empty keyword "nan", because `astype(str)` has
stringified the null to "nan" before matching. -/
theorem claim_C3_null_post_retained :
    keywordFilter ("nan") [rNull] = [rNull] ∧ rNull.post = none ∧ ("nan" : String) ≠ "" := by
  exact ⟨by decide, rfl, by decide⟩

/-- C3 amended: the empty keyword is the identity; a non-empty
metacharacter-free keyword retains exactly the records whose stringified post
text (null becomes the string "nan") contains the keyword case-insensitively —
so a null-post record is retained precisely when the keyword occurs in "nan". -/
theorem claim_C3_keyword_filter_semantics :
    (∀ t : Table, keywordFilter ("") t = t) ∧
    (∀ (t : Table) (kw : String) (r : PostRecord), kw ≠ "" →
      (r ∈ keywordFilter kw t ↔
        r ∈ t ∧ (strLower kw).data <:+: (strLower (pyStr r.post)).data)) ∧
    (∀ (t : Table) (kw : String) (r : PostRecord), kw ≠ "" → r.post = none →
      (r ∈ keywordFilter kw t ↔
        r ∈ t ∧ (strLower kw).data <:+: (strLower ("nan")).data)) := by
  have hmem : ∀ (t : Table) (kw : String) (r : PostRecord), kw ≠ "" →
      (r ∈ keywordFilter kw t ↔
        r ∈ t ∧ (strLower kw).data <:+: (strLower (pyStr r.post)).data) := by
    intro t kw r hk
    simp [keywordFilter, hk, List.mem_filter, pyContains, containsSub_iff]
  exact ⟨fun t => by simp [keywordFilter], hmem,
    fun t kw r hk hp => by simpa [hp, pyStr] using hmem t kw r hk⟩

/-- C3 witness: membership characterization of the filter at the keyword
"tutorial" on the one-row table. -/
theorem claim_C3_keyword_filter_semantics_witness :
    ("tutorial" : String) ≠ "" ∧
    (rOne ∈ keywordFilter ("tutorial") tOne ↔
      rOne ∈ tOne ∧ (strLower ("tutorial")).data <:+: (strLower (pyStr rOne.post)).data) :=
  ⟨by decide, claim_C3_keyword_filter_semantics.2.1 tOne ("tutorial") rOne (by decide)⟩

/-- C6: the post-type classification is total (every record maps to
"Educational" or "Other"), a record is "Educational" exactly when some fixed
keyword occurs case-insensitively as a substring of its stringified post text,
a post "Free Tutorial" classifies as "Educational", and a post
"Check out our product" classifies as "Other". -/
theorem claim_C6_post_type_classification :
    (∀ post : Option String,
      classify_post_type post = "Educational" ∨ classify_post_type post = "Other") ∧
    (∀ post : Option String,
      classify_post_type post = "Educational" ↔
        ∃ k ∈ educational_keywords, (strLower k).data <:+: (strLower (pyStr post)).data) ∧
    classify_post_type (some ("Free Tutorial")) = "Educational" ∧
    classify_post_type (some ("Check out our product")) = "Other" := by
  have hiff : ∀ post : Option String,
      classify_post_type post = "Educational" ↔
        ∃ k ∈ educational_keywords, (strLower k).data <:+: (strLower (pyStr post)).data := by
    intro post
    by_cases h :
        educational_keywords.any
          (fun k => containsSub k.data (strLower (pyStr post)).data) = true
    · simp only [classify_post_type, h, if_true]
      obtain ⟨k, hk, hc⟩ := List.any_eq_true.mp h
      constructor
      · intro _
        exact ⟨k, hk, by
          rw [educational_keywords_lower k hk]
          exact (containsSub_iff _ _).mp hc⟩
      · intro _
        trivial
    · simp only [classify_post_type, h, if_false]
      constructor
      · intro hbad
        exact absurd hbad (by decide)
      · rintro ⟨k, hk, hinf⟩
        rw [educational_keywords_lower k hk] at hinf
        exact absurd (List.any_eq_true.mpr ⟨k, hk, (containsSub_iff _ _).mpr hinf⟩) h
  refine ⟨fun post => ?_, hiff, by decide, by decide⟩
  by_cases h :
      educational_keywords.any
        (fun k => containsSub k.data (strLower (pyStr post)).data) = true
  · exact Or.inl (by simp [classify_post_type, h])
  · exact Or.inr (by simp [classify_post_type, h])

theorem findallHashtags_nil : findallHashtags [] = [] := by
  simp [findallHashtags]

theorem findallHashtags_hash (rest : List Char) :
    findallHashtags ('#' :: rest) =
      if rest.takeWhile isWordChar = [] then findallHashtags rest
      else ('#' :: rest.takeWhile isWordChar) ::
        findallHashtags (rest.dropWhile isWordChar) := by
  simp [findallHashtags]

theorem findallHashtags_cons (c : Char) (rest : List Char) (h : c ≠ '#') :
    findallHashtags (c :: rest) = findallHashtags rest := by
  simp [findallHashtags, h]

theorem isHashtagStart_cons (c : Char) (l : List Char) (i : Nat) :
    isHashtagStart (c :: l) (i + 1) = isHashtagStart l i := by
  simp [isHashtagStart, List.get?_cons_succ]

theorem tokenAt_cons (c : Char) (l : List Char) (i : Nat) :
    tokenAt (c :: l) (i + 1) = tokenAt l i := by
  simp [tokenAt, List.drop_succ_cons]

theorem hashtagOccurrences_cons (c : Char) (l : List Char) :
    hashtagOccurrences (c :: l) =
      (if isHashtagStart (c :: l) 0 = true then [tokenAt (c :: l) 0] else []) ++
        hashtagOccurrences l := by
  have hfilter :
      (List.map Nat.succ (List.range l.length)).filter (isHashtagStart (c :: l)) =
        List.map Nat.succ ((List.range l.length).filter (isHashtagStart l)) := by
    rw [List.filter_map]
    exact congrArg (List.map Nat.succ)
      (List.filter_congr (fun i _ => by
        simp [Function.comp, Nat.succ_eq_add_one, isHashtagStart_cons]))
  have hmap : ∀ m : List Nat,
      List.map (tokenAt (c :: l)) (List.map Nat.succ m) = List.map (tokenAt l) m := by
    intro m
    rw [List.map_map]
    refine List.map_congr_left (fun i _ => ?_)
    simp [Function.comp, tokenAt_cons]
  unfold hashtagOccurrences
  rw [List.length_cons, List.range_succ_eq_map, List.filter_cons]
  by_cases h0 : isHashtagStart (c :: l) 0 = true
  · rw [if_pos h0, if_pos h0, List.map_cons, hfilter, hmap]
    rfl
  · rw [if_neg h0, if_neg h0, hfilter, hmap]
    rfl

theorem hashtagOccurrences_word_append (w l : List Char)
    (hw : ∀ c ∈ w, isWordChar c = true) :
    hashtagOccurrences (w ++ l) = hashtagOccurrences l := by
  induction w with
  | nil => rfl
  | cons c w ih =>
    have hc : isWordChar c = true := hw c (List.mem_cons_self c w)
    have hne : c ≠ '#' := by
      intro h
      rw [h] at hc
      exact absurd hc (by decide)
    have h0 : isHashtagStart (c :: (w ++ l)) 0 = false := by
      simp [isHashtagStart, List.get?_cons_zero, hne]
    rw [List.cons_append, hashtagOccurrences_cons, h0]
    simpa using ih (fun x hx => hw x (List.mem_cons_of_mem c hx))

theorem findallHashtags_eq_occurrences (l : List Char) :
    findallHashtags l = hashtagOccurrences l := by
  induction l using findallHashtags.induct with
  | case1 =>
    rw [findallHashtags_nil]
    rfl
  | case2 rest w hw ih =>
    have hw2 : List.takeWhile isWordChar rest = [] := hw
    have h0 : isHashtagStart ('#' :: rest) 0 = false := by
      cases rest with
      | nil => rfl
      | cons d rest2 =>
        have hd : isWordChar d = false := by
          by_contra hcon
          rw [List.takeWhile_cons_of_pos (by simpa using hcon)] at hw2
          exact absurd hw2 (by simp)
        simp [isHashtagStart, hd]
    rw [findallHashtags_hash, if_pos hw2, ih, hashtagOccurrences_cons, h0]
    simp
  | case3 rest w hw ih =>
    have hw2 : ¬ List.takeWhile isWordChar rest = [] := hw
    obtain ⟨d, rest2, hr, hd⟩ : ∃ d rest2, rest = d :: rest2 ∧ isWordChar d = true := by
      cases rest with
      | nil => exact absurd rfl hw2
      | cons d rest2 =>
        by_cases hd : isWordChar d = true
        · exact ⟨d, rest2, rfl, hd⟩
        · exfalso
          apply hw2
          simp [List.takeWhile_cons, hd]
    have h0 : isHashtagStart ('#' :: rest) 0 = true := by
      subst hr
      simp [isHashtagStart, hd]
    have hsplit : hashtagOccurrences rest =
        hashtagOccurrences (rest.dropWhile isWordChar) := by
      conv_lhs => rw [← List.takeWhile_append_dropWhile (p := isWordChar) (l := rest)]
      exact hashtagOccurrences_word_append _ _ (fun x hx => List.mem_takeWhile_imp hx)
    rw [findallHashtags_hash, if_neg hw2, ih, hashtagOccurrences_cons, h0, hsplit]
    rfl
  | case4 c rest hc ih =>
    have h0 : isHashtagStart (c :: rest) 0 = false := by
      simp [isHashtagStart, List.get?_cons_zero, hc]
    rw [findallHashtags_cons c rest hc, ih, hashtagOccurrences_cons, h0]
    simp

/-- C7: the derived hashtags value is exactly the ordered occurrence list of
the pattern — every position starting `#` followed by a word character
contributes its maximal token, in text order, one entry per occurrence,
duplicates kept — every extracted token is a `#` followed by one or more word
characters, and the value is a (possibly empty) list by construction, never
null. -/
theorem claim_C7_hashtag_extraction :
    (∀ post : Option String,
      hashtagsOf post =
        (hashtagOccurrences ((pyStr post).data)).map (fun l => String.mk l)) ∧
    (∀ post : Option String, (hashtagsOf post).all tokenOk = true) := by
  have hmain : ∀ post : Option String,
      hashtagsOf post =
        (hashtagOccurrences ((pyStr post).data)).map (fun l => String.mk l) := by
    intro post
    unfold hashtagsOf
    rw [findallHashtags_eq_occurrences]
  refine ⟨hmain, fun post => ?_⟩
  rw [List.all_eq_true]
  intro s hs
  rw [hmain] at hs
  obtain ⟨tok, htok, hmk⟩ := List.mem_map.mp hs
  obtain ⟨i, hi, hti⟩ := List.mem_map.mp htok
  rw [List.mem_filter] at hi
  have hstart := hi.2
  unfold isHashtagStart at hstart
  rw [Bool.and_eq_true] at hstart
  obtain ⟨d, hgd, hwd⟩ : ∃ d, ((pyStr post).data).get? (i + 1) = some d ∧
      isWordChar d = true := by
    rcases hg : ((pyStr post).data).get? (i + 1) with _ | d
    · rw [hg] at hstart
      exact absurd hstart.2 (by simp [Option.any])
    · rw [hg] at hstart
      exact ⟨d, rfl, by simpa [Option.any] using hstart.2⟩
  have hdrop : (((pyStr post).data).drop (i + 1)).head? = some d := by
    rw [List.head?_drop, ← List.get?_eq_getElem?]
    exact hgd
  obtain ⟨tail, htail⟩ : ∃ tail, ((pyStr post).data).drop (i + 1) = d :: tail := by
    rcases hdr : ((pyStr post).data).drop (i + 1) with _ | ⟨e, tail⟩
    · rw [hdr] at hdrop
      exact absurd hdrop (by simp)
    · rw [hdr] at hdrop
      have hed : e = d := by simpa using hdrop
      exact ⟨tail, by rw [← hed]⟩
  subst hmk
  subst hti
  have htok2 : tokenAt ((pyStr post).data) i =
      '#' :: d :: List.takeWhile isWordChar tail := by
    unfold tokenAt
    rw [htail, List.takeWhile_cons_of_pos hwd]
  rw [htok2]
  show ('#' == '#' && !(d :: List.takeWhile isWordChar tail).isEmpty &&
      (d :: List.takeWhile isWordChar tail).all isWordChar) = true
  simp only [Bool.and_eq_true, List.all_eq_true]
  refine ⟨⟨rfl, by simp⟩, fun x hx => ?_⟩
  rcases List.mem_cons.mp hx with hxd | hxt
  · rw [hxd]
    exact hwd
  · exact List.mem_takeWhile_imp hxt

end Project
